import Mathlib

/-!
Shallow embedding of `core/cat/looking_glass/agent_manager.py` (class
`AgentManager`): the agent orchestrator (`execute_agent`), the tool agent
configuration (`execute_tool_agent`) and the memory-chain fallback
(`execute_memory_chain`).  The tool-loop driver, the action parser and the
prompt-template renderer live outside the sources (langchain and the
repository's `prompts.py` / `output_parser.py`); they are modelled from the
spec where noted.  Python exceptions are modelled with `Except`; the external
requests (LLM completions with their stop sequences, tool invocations) are
recorded in an event trace; the mutable `agent_input` dict is threaded
through the calls as explicit state.
-/

set_option linter.unusedVariables false
set_option maxRecDepth 16384

/-- Mapping of named conversational context values: the Python `agent_input`
dict (string keys to text values). -/
abbrev AgentInput := List (String × String)

/-- Read `d[k]` on an input mapping. -/
def lookupVar (vars : AgentInput) (k : String) : Option String :=
  (vars.find? (fun kv => kv.1 == k)).map (fun kv => kv.2)

/-- One scratchpad entry: a tool action (name and input) together with its
observation. -/
structure ScratchpadEntry where
  tool : String
  toolInput : String
  observation : String
deriving DecidableEq, Repr

/-- A value stored in a chain result record: the dicts returned by the chains
hold strings and, on the tool path, the list of intermediate steps. -/
inductive DVal where
  | str : String → DVal
  | steps : List ScratchpadEntry → DVal
deriving DecidableEq, Repr

/-- A chain result record: a Python dict from string keys to values. -/
abbrev Dict := List (String × DVal)

/-- Read `d[k]` on a result record. -/
def dictGet (d : Dict) (k : String) : Option DVal :=
  (d.find? (fun kv => kv.1 == k)).map (fun kv => kv.2)

/-- Python dict assignment `d[k] = v`: overwrite the existing key in place,
or append a new key at the end. -/
def dictSet (d : Dict) (k : String) (v : DVal) : Dict :=
  if (d.find? (fun kv => kv.1 == k)).isSome then
    d.map (fun kv => if kv.1 == k then (k, v) else kv)
  else d ++ [(k, v)]

/-- The input mapping viewed as a result record: langchain chains return the
call inputs merged with their output keys. -/
def toStrDict (ai : AgentInput) : Dict :=
  ai.map (fun kv => (kv.1, DVal.str kv.2))

/-- A tool: name, description and a fallible text-to-text callable; a failure
carries a human-readable message. -/
structure ToolSpec where
  name : String
  description : String
  invoke : String → Except String String

/-- The error taxonomy of the spec: missing prompt variable, unparsable LLM
completion, unknown tool name, and the same tool failing identically twice in
a row. -/
inductive AgentError where
  | missingVariable : String → AgentError
  | malformedOutput : String → AgentError
  | unknownTool : String → AgentError
  | toolLoopStuck : String → AgentError
deriving DecidableEq, Repr

/-- External requests issued while executing one turn: an LLM completion
request (prompt and stop sequences) or a tool invocation (name and input). -/
inductive Event where
  | llmCall : String → List String → Event
  | toolCall : String → String → Event
deriving DecidableEq, Repr

/-- The LLM completion service: prompt and stop sequences to completion text.
Opaque and external; the stop sequences are part of the request. -/
abbrev LLMFun := String → List String → String

/-! ### Executable string scanning helpers (structural recursion) -/

/-- Index of the first occurrence of `marker` in `text`, character lists. -/
def findMarkerL (marker : List Char) : List Char → Option Nat
  | [] => if marker.isEmpty then some 0 else none
  | c :: rest =>
    if marker.isPrefixOf (c :: rest) then some 0
    else (findMarkerL marker rest).map (fun n => n + 1)

/-- The text after the first occurrence of `marker`, character lists. -/
def afterMarkerL (marker : List Char) : List Char → Option (List Char)
  | [] => if marker.isEmpty then some [] else none
  | c :: rest =>
    if marker.isPrefixOf (c :: rest) then some ((c :: rest).drop marker.length)
    else afterMarkerL marker rest

/-- Replace every occurrence of `marker` by `repl`; `fuel` bounds the scan
(passing the text's length scans it whole). -/
def replaceMarkerL (marker repl : List Char) : Nat → List Char → List Char
  | 0, text => text
  | _ + 1, [] => []
  | fuel + 1, c :: rest =>
    if marker.isPrefixOf (c :: rest) then
      repl ++ replaceMarkerL marker repl fuel ((c :: rest).drop marker.length)
    else c :: replaceMarkerL marker repl fuel rest

/-- Index of the first occurrence of `marker` in `text`, if any. -/
def strFind (text marker : String) : Option Nat :=
  findMarkerL marker.data text.data

/-- The text after the first occurrence of `marker`, if any. -/
def strAfter (text marker : String) : Option String :=
  (afterMarkerL marker.data text.data).map String.mk

/-- Replace every occurrence of `marker` in `text` by `repl`. -/
def strReplace (text marker repl : String) : String :=
  String.mk (replaceMarkerL marker.data repl.data text.data.length text.data)

/-- Whitespace recognizer used for trimming. -/
def isWS (c : Char) : Bool :=
  c == ' ' || c == '\n' || c == '\t' || c == '\r'

/-- Strip leading and trailing whitespace. -/
def strTrim (s : String) : String :=
  String.mk (((s.data.dropWhile isWS).reverse.dropWhile isWS).reverse)

/-- The first line of a string (up to the first newline). -/
def firstLine (s : String) : String :=
  String.mk (s.data.takeWhile (fun c => c != '\n'))

/-- Join strings with a separator. -/
def joinSep (sep : String) : List String → String
  | [] => ""
  | [x] => x
  | x :: y :: rest => x ++ sep ++ joinSep sep (y :: rest)

/-! ### Prompt Builder -/

/-- Modelled from the spec: the Prompt Builder (§4.1; the repository renders
prompt templates through langchain's `PromptTemplate`, not under the sources
here).  Rendering fails with `MissingVariableError` when a required variable
is absent from the mapping, otherwise substitutes every required variable's
placeholder in the template. -/
def renderPrompt (template : String) (required : List String) (vars : AgentInput) :
    Except AgentError String :=
  match required.find? (fun v => (lookupVar vars v).isNone) with
  | some v => .error (.missingVariable v)
  | none =>
    .ok (required.foldl
      (fun t v => strReplace t ("\x7b" ++ v ++ "\x7d") ((lookupVar vars v).getD "")) template)

/-! ### Action Parser -/

/-- A parsed LLM completion: either a tool action or a terminal answer. -/
inductive ParsedStep where
  | toolCall : String → String → ParsedStep
  | finalAnswer : String → ParsedStep
deriving DecidableEq, Repr

/-- Modelled from the spec: the "Action:" / "Action Input:" arm of the Action
Parser (§4.2; the repository's `ToolOutputParser` is not under the sources
here).  The action name is the rest of the "Action:" line, the action input is
everything after "Action Input:", both trimmed; a missing "Action Input:"
marker is a `MalformedOutputError`. -/
def parseAction (text : String) : Except AgentError ParsedStep :=
  match strAfter text "Action:" with
  | none => .error (.malformedOutput text)
  | some rest =>
    match strAfter rest "Action Input:" with
    | none => .error (.malformedOutput text)
    | some inp => .ok (.toolCall (strTrim (firstLine rest)) (strTrim inp))

/-- Modelled from the spec: the Action Parser (§4.2).  "Final Answer:" wins
exactly when it occurs before any "Action:" marker (or no "Action:" exists);
otherwise a well-formed "Action:" / "Action Input:" pair is required; text
with neither marker fails with `MalformedOutputError`. -/
def parseOutput (text : String) : Except AgentError ParsedStep :=
  match strFind text "Final Answer:", strFind text "Action:" with
  | some _, none => .ok (.finalAnswer (strTrim ((strAfter text "Final Answer:").getD "")))
  | some pf, some pa =>
    if pf < pa then .ok (.finalAnswer (strTrim ((strAfter text "Final Answer:").getD "")))
    else parseAction text
  | none, some _ => parseAction text
  | none, none => .error (.malformedOutput text)

/-! ### The tool prompt (agent_manager.py lines 32-55) -/

/-- The tools block of the tool prompt: one "name: description" line per
tool. -/
def renderTools (tools : List ToolSpec) : String :=
  joinSep "\n" (tools.map (fun t => t.name ++ ": " ++ t.description))

/-- The comma-separated allowed tool names. -/
def renderToolNames (tools : List ToolSpec) : String :=
  joinSep ", " (tools.map (fun t => t.name))

/-- Modelled from the spec: the literal scratchpad transcript rendered into
the prompt each cycle (§4.3; the repository's `ToolPromptTemplate` is not
under the sources here). -/
def renderScratchpad (steps : List ScratchpadEntry) : String :=
  steps.foldl
    (fun acc e =>
      acc ++ "Action: " ++ e.tool ++ "\nAction Input: " ++ e.toolInput
        ++ "\nObservation: " ++ e.observation ++ "\nThought: ") ""

/-- The fixed literal tool prompt template of `execute_tool_agent`
(agent_manager.py lines 32-55), rendered: its only dynamic pieces are the
`input` variable, the tools block, the tool-name list and the scratchpad. -/
def toolPrompt (tools : List ToolSpec) (inputText : String) (steps : List ScratchpadEntry) :
    String :=
  "Answer the following question: `" ++ inputText
    ++ "`\nYou can only reply using these tools:\n\n"
    ++ renderTools tools
    ++ "\n\nIf no tool is useful, just reply \"Final Answer: ?\"\nIf you want to use a tool, use the following format:\n\nAction: the name of the action to take, should be one of ["
    ++ renderToolNames tools
    ++ "]\nAction Input: the input to the action\nObservation: the result of the action\n... (this Action/Action Input/Observation can repeat N times)\nFinal Answer: the final answer to the original input question (or \"?\" if no tool is adapt)\n\nBegin!\n\nQuestion: "
    ++ inputText ++ "\n" ++ renderScratchpad steps

/-! ### Tool-Agent Loop -/

/-- Modelled from the spec: the Tool-Agent Loop state machine (§4.3; the loop
driver is langchain's `AgentExecutor` over the `LLMSingleActionAgent`
configured in `execute_tool_agent`, not under the sources here).  Each cycle
renders the fixed tool prompt over the accumulated scratchpad, requests a
completion with the single stop sequence "\nObservation:" configured at
agent_manager.py line 67, and parses it.  A tool failure becomes the
observation unless the same tool fails with the identical message twice in a
row (`ToolLoopStuckError`); an unknown tool name becomes an observation; an
unparsable completion raises.  `fuel` is the remaining iteration budget:
exhausting it ends the loop with the sentinel "?" and the accumulated
scratchpad (the CAPPED outcome).  The returned trace records every external
request in order. -/
def toolLoop (llm : LLMFun) (tools : List ToolSpec) (inputText : String) :
    Nat → List ScratchpadEntry → Option (String × String) →
    Except AgentError (String × List ScratchpadEntry) × List Event
  | 0, steps, _ => (.ok ("?", steps), [])
  | fuel + 1, steps, lastFailure =>
    let prompt := toolPrompt tools inputText steps
    let completion := llm prompt ["\nObservation:"]
    let ev := Event.llmCall prompt ["\nObservation:"]
    match parseOutput completion with
    | .error e => (.error e, [ev])
    | .ok (.finalAnswer t) => (.ok (t, steps), [ev])
    | .ok (.toolCall name inp) =>
      match tools.find? (fun t => t.name == name) with
      | none =>
        let obs := name ++ " is not a valid tool, try another one."
        let (r, tr) := toolLoop llm tools inputText fuel (steps ++ [⟨name, inp, obs⟩]) none
        (r, ev :: Event.toolCall name inp :: tr)
      | some tool =>
        match tool.invoke inp with
        | .ok obs =>
          let (r, tr) := toolLoop llm tools inputText fuel (steps ++ [⟨name, inp, obs⟩]) none
          (r, ev :: Event.toolCall name inp :: tr)
        | .error msg =>
          if lastFailure = some (name, msg) then
            (.error (.toolLoopStuck msg), [ev, Event.toolCall name inp])
          else
            let (r, tr) :=
              toolLoop llm tools inputText fuel (steps ++ [⟨name, inp, msg⟩]) (some (name, msg))
            (r, ev :: Event.toolCall name inp :: tr)

/-- agent_manager.py lines 28-81, `AgentManager.execute_tool_agent`: build the
fixed tool prompt template over the allowed tools, configure the
single-action agent with the one stop sequence "\nObservation:", and run the
executor with `return_intermediate_steps=True`, whose result record is the
call inputs plus `output` and `intermediate_steps`.  `maxIterations` is the
executor's iteration cap (langchain default 15; the source does not override
it).  An error escaping the loop escapes this call; a missing `input`
variable fails the prompt rendering.  The mutable `agent_input` is returned
as the final state: nothing in the call writes to it. -/
def execute_tool_agent (llm : LLMFun) (maxIterations : Nat) (agent_input : AgentInput)
    (allowed_tools : List ToolSpec) : (Except AgentError Dict × List Event) × AgentInput :=
  match lookupVar agent_input "input" with
  | none => ((.error (.missingVariable "input"), []), agent_input)
  | some inputText =>
    let (r, tr) := toolLoop llm allowed_tools inputText maxIterations [] none
    match r with
    | .error e => ((.error e, tr), agent_input)
    | .ok (outText, steps) =>
      ((.ok (dictSet (dictSet (toStrDict agent_input) "output" (.str outText))
          "intermediate_steps" (.steps steps)), tr), agent_input)

/-! ### Memory-Chain Fallback (agent_manager.py lines 84-108) -/

/-- The input variables of the memory prompt (agent_manager.py lines
92-97). -/
def memoryChainInputVariables : List String :=
  ["input", "chat_history", "episodic_memory", "declarative_memory"]

/-- agent_manager.py lines 84-108, `AgentManager.execute_memory_chain`: build
a prompt template from `prompt_prefix + prompt_suffix` over the four memory
variables, run the LLM chain once — no stop sequences, no tools — and return
its record: the call inputs plus `text` (the completion), then
`out["output"] = out["text"]`.  A rendering failure escapes.  The mutable
`agent_input` is returned as the final state: nothing in the call writes to
it. -/
def execute_memory_chain (llm : LLMFun) (agent_input : AgentInput)
    (promptPrefixArg promptSuffixArg : String) :
    (Except AgentError Dict × List Event) × AgentInput :=
  match renderPrompt (promptPrefixArg ++ promptSuffixArg) memoryChainInputVariables agent_input with
  | .error e => ((.error e, []), agent_input)
  | .ok p =>
    let t := llm p []
    let out := dictSet (toStrDict agent_input) "text" (.str t)
    let out := dictSet out "output" (.str t)
    ((.ok out, [Event.llmCall p []]), agent_input)

/-! ### Agent Orchestrator (agent_manager.py lines 111-149) -/

/-- The extensibility collaborator: the five `mad_hatter.execute_hook` calls
of `execute_agent` (agent_manager.py lines 122-139), each fixed for the
turn — the three prompt-fragment hooks (`agent_prompt_prefix`,
`agent_prompt_instructions`, `agent_prompt_suffix`), the
`before_agent_creates_prompt` variable-mutation hook, and the
`agent_allowed_tools` hook. -/
structure MadHatter where
  promptPrefixHook : String
  promptInstructionsHook : String
  promptSuffixHook : String
  beforeAgentCreatesPrompt : List String → String → List String
  agentAllowedTools : List ToolSpec

/-- The initial input-variable list of `execute_agent` (agent_manager.py
lines 128-134). -/
def initialInputVariables : List String :=
  ["input", "chat_history", "episodic_memory", "declarative_memory", "agent_scratchpad"]

/-- The variable list the `before_agent_creates_prompt` hook returns
(agent_manager.py lines 136-137): the hook receives the initial list and the
space-joined prompt fragments. -/
def hookAdjustedVariables (mh : MadHatter) : List String :=
  mh.beforeAgentCreatesPrompt initialInputVariables
    (joinSep " " [mh.promptPrefixHook, mh.promptInstructionsHook, mh.promptSuffixHook])

/-- agent_manager.py lines 111-149, `AgentManager.execute_agent`: gather the
hook values (the adjusted variable list is computed and then never read), run
the tool agent when the allowed-tools list is non-empty, and run the memory
chain exactly when the tool path did not run or its `output` is the literal
sentinel "?".  There is no exception handling in the source: an error raised
by either chain escapes to the caller at the point it is raised. -/
def execute_agent (llm : LLMFun) (maxIterations : Nat) (mh : MadHatter)
    (agent_input : AgentInput) : (Except AgentError Dict × List Event) × AgentInput :=
  let promptPrefix := mh.promptPrefixHook
  let promptInstructions := mh.promptInstructionsHook
  let promptSuffix := mh.promptSuffixHook
  let input_variables := hookAdjustedVariables mh
  let allowed_tools := mh.agentAllowedTools
  if 0 < allowed_tools.length then
    match execute_tool_agent llm maxIterations agent_input allowed_tools with
    | ((.error e, tr), ai') => ((.error e, tr), ai')
    | ((.ok out, tr), ai') =>
      if dictGet out "output" ≠ some (DVal.str "?") then ((.ok out, tr), ai')
      else
        match execute_memory_chain llm ai' promptPrefix promptSuffix with
        | ((r2, tr2), ai'') => ((r2, tr ++ tr2), ai'')
  else
    execute_memory_chain llm agent_input promptPrefix promptSuffix

deriving instance DecidableEq for Except

example : parseOutput "Final Answer: 42" = .ok (.finalAnswer "42") := by decide
example : parseOutput "blah" = .error (.malformedOutput "blah") := by decide
example : parseOutput "Action: calc\nAction Input: 2+2" = .ok (.toolCall "calc" "2+2") := by
  decide

/-! ### Concrete fixtures -/

/-- A standard input mapping holding the four conversational variables. -/
def aiStd : AgentInput :=
  [("input", "q"), ("chat_history", "h"), ("episodic_memory", "e"),
   ("declarative_memory", "d")]

/-- A tool that always succeeds, echoing its input. -/
def echoTool : ToolSpec :=
  { name := "calc", description := "does math", invoke := fun s => .ok ("R" ++ s) }

/-- An LLM that answers "Final Answer: 42" on tool prompts (recognized by the
stop sequence) and "MEM" on memory prompts. -/
def llm42 : LLMFun := fun _ st => if st == ["\nObservation:"] then "Final Answer: 42" else "MEM"

/-- An LLM that answers the sentinel "Final Answer: ?" on tool prompts and
"MEMANS" on memory prompts. -/
def llmQ : LLMFun := fun _ st => if st == ["\nObservation:"] then "Final Answer: ?" else "MEMANS"

/-- An LLM that always answers unparsable text. -/
def llmBad : LLMFun := fun _ _ => "gibberish"

/-- An LLM that always answers "ANSWER". -/
def llmConst : LLMFun := fun _ _ => "ANSWER"

/-- A hook assembly with one allowed tool and identity variable hook. -/
def mhStd : MadHatter :=
  { promptPrefixHook := "PRE ", promptInstructionsHook := "INSTR",
    promptSuffixHook := "SUF", beforeAgentCreatesPrompt := fun vs _ => vs,
    agentAllowedTools := [echoTool] }

/-- A hook assembly with an empty allowed-tools list. -/
def mhNoTools : MadHatter :=
  { promptPrefixHook := "PRE ", promptInstructionsHook := "INSTR",
    promptSuffixHook := "SUF", beforeAgentCreatesPrompt := fun vs _ => vs,
    agentAllowedTools := [] }

/-- A hook assembly whose variable hook rewrites the set to `["nonsense"]`. -/
def mhHookNonsense : MadHatter :=
  { promptPrefixHook := "ASK", promptInstructionsHook := "", promptSuffixHook := "",
    beforeAgentCreatesPrompt := fun _ _ => ["nonsense"], agentAllowedTools := [] }

/-- A hook assembly with its three prompt fragments replaced. -/
def mhWith (mh : MadHatter) (a b c : String) : MadHatter :=
  { mh with promptPrefixHook := a, promptInstructionsHook := b, promptSuffixHook := c }

/-- The concrete record the memory chain returns on the standard fixture. -/
def memRecStd : Dict :=
  [("input", .str "q"), ("chat_history", .str "h"), ("episodic_memory", .str "e"),
   ("declarative_memory", .str "d"), ("text", .str "ANSWER"), ("output", .str "ANSWER")]

/-- The stop sequences of the first LLM request of a concrete tool run. -/
def stopsProbe : List String :=
  match (execute_tool_agent llm42 15 aiStd [echoTool]).1.2 with
  | Event.llmCall _ st :: _ => st
  | _ => []

example :
    (execute_agent llm42 15 mhStd aiStd).1.1 =
      .ok [("input", .str "q"), ("chat_history", .str "h"), ("episodic_memory", .str "e"),
           ("declarative_memory", .str "d"), ("output", .str "42"),
           ("intermediate_steps", .steps [])] := by decide

example :
    (execute_agent llmQ 15 mhStd aiStd).1.1 =
      .ok [("input", .str "q"), ("chat_history", .str "h"), ("episodic_memory", .str "e"),
           ("declarative_memory", .str "d"), ("text", .str "MEMANS"),
           ("output", .str "MEMANS")] := by decide

example :
    (execute_agent llmBad 15 mhStd aiStd).1.1 = .error (.malformedOutput "gibberish") := by
  decide

example :
    (execute_agent llmConst 15 mhNoTools aiStd).1.2 = [Event.llmCall "PRE SUF" []] := by decide

/-! ### Helper lemmas -/

/-- Running the tool agent leaves the input mapping unchanged as its final
state: the source never writes into `agent_input`. -/
theorem execute_tool_agent_state (llm : LLMFun) (n : Nat) (ai : AgentInput)
    (tools : List ToolSpec) : (execute_tool_agent llm n ai tools).2 = ai := by
  unfold execute_tool_agent
  cases lookupVar ai "input" with
  | none => rfl
  | some inputText =>
    dsimp only
    cases toolLoop llm tools inputText n [] none with
    | mk r tr =>
      cases r with
      | error e => rfl
      | ok p => cases p with | mk outText steps => rfl

/-- Running the memory chain leaves the input mapping unchanged as its final
state: the source never writes into `agent_input`. -/
theorem execute_memory_chain_state (llm : LLMFun) (ai : AgentInput)
    (pre2 suf2 : String) : (execute_memory_chain llm ai pre2 suf2).2 = ai := by
  unfold execute_memory_chain
  cases renderPrompt (pre2 ++ suf2) memoryChainInputVariables ai with
  | error e => rfl
  | ok p => rfl

/-- On a non-empty allowed-tools list, `execute_agent` reduces to the tool
path followed by the sentinel test (agent_manager.py lines 141-149). -/
theorem execute_agent_tools (llm : LLMFun) (n : Nat) (mh : MadHatter) (ai : AgentInput)
    (h : 0 < mh.agentAllowedTools.length) :
    execute_agent llm n mh ai =
      match execute_tool_agent llm n ai mh.agentAllowedTools with
      | ((.error e, tr), ai') => ((.error e, tr), ai')
      | ((.ok out, tr), ai') =>
        if dictGet out "output" ≠ some (DVal.str "?") then ((.ok out, tr), ai')
        else
          match execute_memory_chain llm ai' mh.promptPrefixHook mh.promptSuffixHook with
          | ((r2, tr2), ai'') => ((r2, tr ++ tr2), ai'') := by
  simp only [execute_agent]
  rw [if_pos h]

/-- On an empty allowed-tools list, `execute_agent` is exactly the memory
chain call (agent_manager.py lines 141-149 with the tool branch skipped). -/
theorem execute_agent_no_tools (llm : LLMFun) (n : Nat) (mh : MadHatter) (ai : AgentInput)
    (h : mh.agentAllowedTools = []) :
    execute_agent llm n mh ai =
      execute_memory_chain llm ai mh.promptPrefixHook mh.promptSuffixHook := by
  simp only [execute_agent]
  rw [if_neg]
  simp [h]

/-- Every LLM request the tool loop issues carries the single stop sequence
"\nObservation:" and a prompt rendered from the fixed tool template over some
scratchpad. -/
theorem toolLoop_llmCall_shape (llm : LLMFun) (tools : List ToolSpec) (inputText : String) :
    ∀ fuel steps lastF p st,
      Event.llmCall p st ∈ (toolLoop llm tools inputText fuel steps lastF).2 →
      st = ["\nObservation:"] ∧ ∃ steps2, p = toolPrompt tools inputText steps2 := by
  intro fuel
  induction fuel with
  | zero => intro steps lastF p st h; simp [toolLoop] at h
  | succ n ih =>
    intro steps lastF p st h
    simp only [toolLoop] at h
    split at h
    · simp only [List.mem_singleton, Event.llmCall.injEq] at h
      exact ⟨h.2, steps, h.1⟩
    · simp only [List.mem_singleton, Event.llmCall.injEq] at h
      exact ⟨h.2, steps, h.1⟩
    · split at h
      · simp only [List.mem_cons, Event.llmCall.injEq] at h
        rcases h with ⟨h1, h2⟩ | h | h
        · exact ⟨h2, steps, h1⟩
        · exact absurd h (by simp)
        · exact ih _ _ p st h
      · split at h
        · simp only [List.mem_cons, Event.llmCall.injEq] at h
          rcases h with ⟨h1, h2⟩ | h | h
          · exact ⟨h2, steps, h1⟩
          · exact absurd h (by simp)
          · exact ih _ _ p st h
        · split at h
          · simp only [List.mem_cons, List.not_mem_nil, or_false,
              Event.llmCall.injEq] at h
            rcases h with ⟨h1, h2⟩ | h
            · exact ⟨h2, steps, h1⟩
            · exact absurd h (by simp)
          · simp only [List.mem_cons, Event.llmCall.injEq] at h
            rcases h with ⟨h1, h2⟩ | h | h
            · exact ⟨h2, steps, h1⟩
            · exact absurd h (by simp)
            · exact ih _ _ p st h

/-- Reading a cons cell of a record: the head answers when its key matches. -/
theorem dictGet_cons (x : String × DVal) (l : Dict) (k : String) :
    dictGet (x :: l) k = if x.1 == k then some x.2 else dictGet l k := by
  unfold dictGet
  cases hx : x.1 == k <;> simp [List.find?, hx]

/-- Reading a cons cell of an input mapping: the head answers when its key
matches. -/
theorem lookupVar_cons (x : String × String) (l : AgentInput) (k : String) :
    lookupVar (x :: l) k = if x.1 == k then some x.2 else lookupVar l k := by
  unfold lookupVar
  cases hx : x.1 == k <;> simp [List.find?, hx]

/-- Reading the record view of an input mapping agrees with reading the
mapping. -/
theorem dictGet_toStrDict (ai : AgentInput) (k : String) :
    dictGet (toStrDict ai) k = (lookupVar ai k).map DVal.str := by
  induction ai with
  | nil => rfl
  | cons kv rest ih =>
    simp only [toStrDict, List.map_cons] at ih ⊢
    rw [dictGet_cons, lookupVar_cons]
    cases hx : kv.1 == k <;> simp [hx, ih]

/-- Overwriting key `k` in place does not change reads of another key. -/
theorem dictGet_map_replace (k k2 : String) (v : DVal) (h : k2 ≠ k) (d : Dict) :
    dictGet (d.map (fun kv => if kv.1 == k then (k, v) else kv)) k2 = dictGet d k2 := by
  induction d with
  | nil => rfl
  | cons kv rest ih =>
    simp only [beq_iff_eq] at ih
    by_cases hx : kv.1 = k
    · have h2 : ¬ kv.1 = k2 := by rw [hx]; exact Ne.symm h
      simp [List.map_cons, dictGet_cons, hx, Ne.symm h, h2, ih]
    · simp [List.map_cons, dictGet_cons, hx, ih]

/-- Appending a new key at the end does not change reads of another key. -/
theorem dictGet_append_single_ne (k k2 : String) (v : DVal) (h : k2 ≠ k) (d : Dict) :
    dictGet (d ++ [(k, v)]) k2 = dictGet d k2 := by
  induction d with
  | nil => simp [dictGet_cons, Ne.symm h, dictGet]
  | cons kv rest ih => simp [List.cons_append, dictGet_cons, ih]

/-- Python `d[k] = v` does not change reads of another key. -/
theorem dictGet_dictSet_ne (d : Dict) (k k2 : String) (v : DVal) (h : k2 ≠ k) :
    dictGet (dictSet d k v) k2 = dictGet d k2 := by
  unfold dictSet
  split
  · exact dictGet_map_replace k k2 v h d
  · exact dictGet_append_single_ne k k2 v h d

/-- Overwriting an existing key `k` in place makes reads of `k` answer the new
value. -/
theorem dictGet_map_replace_self (k : String) (v : DVal) :
    ∀ d : Dict, (d.find? (fun kv => kv.1 == k)).isSome = true →
      dictGet (d.map (fun kv => if kv.1 == k then (k, v) else kv)) k = some v := by
  intro d
  induction d with
  | nil => intro hsome; simp [List.find?] at hsome
  | cons kv rest ih =>
    intro hsome
    by_cases hx : kv.1 = k
    · simp [List.map_cons, dictGet_cons, hx]
    · have hxb : (kv.1 == k) = false := beq_eq_false_iff_ne.mpr hx
      have hsome2 : (rest.find? (fun kv => kv.1 == k)).isSome = true := by
        simpa [List.find?, hxb] using hsome
      have ih2 := ih hsome2
      simp only [beq_iff_eq] at ih2
      simp [List.map_cons, dictGet_cons, hx, ih2]

/-- Appending a fresh key `k` at the end makes reads of `k` answer the new
value. -/
theorem dictGet_append_single_self (k : String) (v : DVal) :
    ∀ d : Dict, d.find? (fun kv => kv.1 == k) = none →
      dictGet (d ++ [(k, v)]) k = some v := by
  intro d
  induction d with
  | nil => intro _; simp [dictGet_cons]
  | cons kv rest ih =>
    intro hnone
    by_cases hx : kv.1 = k
    · have hxb : (kv.1 == k) = true := by simp [hx]
      simp [List.find?, hxb] at hnone
    · have hxb : (kv.1 == k) = false := beq_eq_false_iff_ne.mpr hx
      have hnone2 : rest.find? (fun kv => kv.1 == k) = none := by
        simpa [List.find?, hxb] using hnone
      simp [List.cons_append, dictGet_cons, hx, ih hnone2]

/-- Python `d[k] = v` makes reads of `k` answer the new value. -/
theorem dictGet_dictSet_self (d : Dict) (k : String) (v : DVal) :
    dictGet (dictSet d k v) k = some v := by
  unfold dictSet
  split
  · next hsome => exact dictGet_map_replace_self k v d hsome
  · next hns =>
    refine dictGet_append_single_self k v d ?_
    cases hfind : d.find? (fun kv => kv.1 == k)
    · rfl
    · exact absurd (by simp [hfind]) hns

/-- On a successful rendering, the memory chain returns the call inputs plus
`text` and `output` (both the completion), with a single LLM request carrying
no stop sequences, and the input mapping unchanged. -/
theorem execute_memory_chain_ok (llm : LLMFun) (ai : AgentInput) (preArg sufArg pr : String)
    (h : renderPrompt (preArg ++ sufArg) memoryChainInputVariables ai = .ok pr) :
    execute_memory_chain llm ai preArg sufArg =
      ((.ok (dictSet (dictSet (toStrDict ai) "text" (.str (llm pr []))) "output"
        (.str (llm pr []))), [Event.llmCall pr []]), ai) := by
  unfold execute_memory_chain
  rw [h]

/-- The memory-chain record carries no `intermediate_steps` key when the call
inputs do not. -/
theorem memory_record_no_steps (ai : AgentInput) (t : String)
    (hnk : lookupVar ai "intermediate_steps" = none) :
    dictGet (dictSet (dictSet (toStrDict ai) "text" (.str t)) "output" (.str t))
      "intermediate_steps" = none := by
  rw [dictGet_dictSet_ne _ _ _ _ (by decide), dictGet_dictSet_ne _ _ _ _ (by decide),
    dictGet_toStrDict, hnk]
  rfl

/-! ### Claim theorems -/

/-- C8: `execute_agent` leaves the caller's `agent_input` mapping unchanged,
on the tool path and on the fallback path alike: the final state equals the
initial state for every LLM, iteration cap, hook assembly and input. -/
theorem execute_agent_preserves_agent_input (llm : LLMFun) (n : Nat) (mh : MadHatter)
    (ai : AgentInput) : (execute_agent llm n mh ai).2 = ai := by
  by_cases h : 0 < mh.agentAllowedTools.length
  · rw [execute_agent_tools llm n mh ai h]
    have hs := execute_tool_agent_state llm n ai mh.agentAllowedTools
    cases hE : execute_tool_agent llm n ai mh.agentAllowedTools with
    | mk rt s =>
      rw [hE] at hs
      cases rt with
      | mk r tr =>
        cases r with
        | error e => exact hs
        | ok out =>
          dsimp only
          by_cases hq : dictGet out "output" ≠ some (DVal.str "?")
          · rw [if_pos hq]; exact hs
          · rw [if_neg hq]
            have hm := execute_memory_chain_state llm s mh.promptPrefixHook mh.promptSuffixHook
            cases hM : execute_memory_chain llm s mh.promptPrefixHook mh.promptSuffixHook with
            | mk rt2 s2 =>
              rw [hM] at hm
              cases rt2 with
              | mk r2 tr2 => exact hm.trans hs
  · have hnil : mh.agentAllowedTools = [] := by
      cases hl : mh.agentAllowedTools with
      | nil => rfl
      | cons a l => exact absurd (by rw [hl]; simp) h
    rw [execute_agent_no_tools llm n mh ai hnil]
    exact execute_memory_chain_state llm ai mh.promptPrefixHook mh.promptSuffixHook

/-- C3: with an empty allowed-tools list, `execute_agent` is exactly the
memory chain's record — same result, same trace, same state — and its trace
holds no tool invocation. -/
theorem execute_agent_empty_tools_is_memory_chain (llm : LLMFun) (n : Nat) (mh : MadHatter)
    (ai : AgentInput) (h : mh.agentAllowedTools = []) :
    execute_agent llm n mh ai =
      execute_memory_chain llm ai mh.promptPrefixHook mh.promptSuffixHook ∧
    ∀ nm inp, Event.toolCall nm inp ∉ (execute_agent llm n mh ai).1.2 := by
  have hE := execute_agent_no_tools llm n mh ai h
  refine ⟨hE, ?_⟩
  intro nm inp hmem
  rw [hE] at hmem
  unfold execute_memory_chain at hmem
  split at hmem <;> simp at hmem

/-- C7: a failure of the memory-chain fallback propagates to the caller
unchanged, both when the tool path was skipped (no allowed tools) and when it
ran but produced the sentinel "?". -/
theorem execute_agent_fallback_failure_propagates (llm : LLMFun) (n : Nat) (mh : MadHatter)
    (ai : AgentInput) :
    (mh.agentAllowedTools = [] →
      ∀ e ftr ai2,
        execute_memory_chain llm ai mh.promptPrefixHook mh.promptSuffixHook =
          ((.error e, ftr), ai2) →
        execute_agent llm n mh ai = ((.error e, ftr), ai2)) ∧
    (∀ out tr ai1, 0 < mh.agentAllowedTools.length →
      execute_tool_agent llm n ai mh.agentAllowedTools = ((.ok out, tr), ai1) →
      dictGet out "output" = some (DVal.str "?") →
      ∀ e ftr ai2,
        execute_memory_chain llm ai1 mh.promptPrefixHook mh.promptSuffixHook =
          ((.error e, ftr), ai2) →
        execute_agent llm n mh ai = ((.error e, tr ++ ftr), ai2)) := by
  constructor
  · intro h e ftr ai2 hm
    rw [execute_agent_no_tools llm n mh ai h, hm]
  · intro out tr ai1 h hE hq e ftr ai2 hm
    rw [execute_agent_tools llm n mh ai h, hE]
    dsimp only
    rw [if_neg (by simp [hq]), hm]

/-- C1: with a non-empty allowed-tools list and a tool run that returns a
record, `execute_agent` returns the loop's record unchanged exactly when its
`output` differs from the sentinel "?", and otherwise returns the memory
chain's result with the fallback trace appended after the loop trace. -/
theorem execute_agent_sentinel_decision (llm : LLMFun) (n : Nat) (mh : MadHatter)
    (ai : AgentInput) (out : Dict) (tr : List Event) (ai1 : AgentInput)
    (htools : 0 < mh.agentAllowedTools.length)
    (hE : execute_tool_agent llm n ai mh.agentAllowedTools = ((.ok out, tr), ai1)) :
    (dictGet out "output" ≠ some (DVal.str "?") →
      execute_agent llm n mh ai = ((.ok out, tr), ai1)) ∧
    (dictGet out "output" = some (DVal.str "?") →
      execute_agent llm n mh ai =
        (((execute_memory_chain llm ai1 mh.promptPrefixHook mh.promptSuffixHook).1.1,
          tr ++ (execute_memory_chain llm ai1 mh.promptPrefixHook mh.promptSuffixHook).1.2),
         (execute_memory_chain llm ai1 mh.promptPrefixHook mh.promptSuffixHook).2)) := by
  constructor
  · intro hq
    rw [execute_agent_tools llm n mh ai htools, hE]
    dsimp only
    rw [if_pos hq]
  · intro hq
    rw [execute_agent_tools llm n mh ai htools, hE]
    dsimp only
    rw [if_neg (by simp [hq])]

/-- C1 witness: one allowed tool, an LLM whose tool-path completion is
"Final Answer: 42": the loop record (output "42", empty scratchpad, the tool
inputs merged in) is returned unchanged. -/
theorem execute_agent_sentinel_decision_witness :
    execute_agent llm42 15 mhStd aiStd =
      ((.ok [("input", .str "q"), ("chat_history", .str "h"), ("episodic_memory", .str "e"),
            ("declarative_memory", .str "d"), ("output", .str "42"),
            ("intermediate_steps", .steps [])],
        [Event.llmCall (toolPrompt [echoTool] "q" []) ["\nObservation:"]]), aiStd) :=
  (execute_agent_sentinel_decision llm42 15 mhStd aiStd
      [("input", .str "q"), ("chat_history", .str "h"), ("episodic_memory", .str "e"),
       ("declarative_memory", .str "d"), ("output", .str "42"),
       ("intermediate_steps", .steps [])]
      [Event.llmCall (toolPrompt [echoTool] "q" []) ["\nObservation:"]] aiStd
      (by decide) (by decide)).1 (by decide)

/-- C2 corrected: the source installs no exception handler, so an error
raised inside the tool run — `MissingVariableError`, `MalformedOutputError`
or `ToolLoopStuckError` alike — escapes `execute_agent` unchanged and the
memory chain never runs (the trace ends with the tool run's trace). -/
theorem execute_agent_tool_error_propagates (llm : LLMFun) (n : Nat) (mh : MadHatter)
    (ai : AgentInput) (e : AgentError) (tr : List Event) (ai1 : AgentInput)
    (htools : 0 < mh.agentAllowedTools.length)
    (hE : execute_tool_agent llm n ai mh.agentAllowedTools = ((.error e, tr), ai1)) :
    execute_agent llm n mh ai = ((.error e, tr), ai1) := by
  rw [execute_agent_tools llm n mh ai htools, hE]

/-- C2 witness: an LLM that always answers unparsable text makes the first
loop cycle raise `MalformedOutputError`, and `execute_agent` surfaces exactly
that error. -/
theorem execute_agent_tool_error_propagates_witness :
    execute_agent llmBad 15 mhStd aiStd =
      ((.error (.malformedOutput "gibberish"),
        [Event.llmCall (toolPrompt [echoTool] "q" []) ["\nObservation:"]]), aiStd) :=
  execute_agent_tool_error_propagates llmBad 15 mhStd aiStd (.malformedOutput "gibberish")
    [Event.llmCall (toolPrompt [echoTool] "q" []) ["\nObservation:"]] aiStd
    (by decide) (by decide)

/-- C2 counterexample: the claim says a loop failure other than stuck/capped
triggers the fallback and its output is returned; on this input the loop
fails with `MalformedOutputError`, `execute_agent` returns that error — not a
record — although the memory chain on the same turn would have produced one. -/
theorem execute_agent_tool_error_counterexample :
    (execute_agent llmBad 15 mhStd aiStd).1.1 = .error (.malformedOutput "gibberish") ∧
    (execute_memory_chain llmBad aiStd mhStd.promptPrefixHook mhStd.promptSuffixHook).1.1 =
      .ok [("input", .str "q"), ("chat_history", .str "h"), ("episodic_memory", .str "e"),
           ("declarative_memory", .str "d"), ("text", .str "gibberish"),
           ("output", .str "gibberish")] := by
  exact ⟨by decide, by decide⟩

/-- C3 witness: a hook assembly with zero allowed tools falls through to the
memory chain on a concrete turn. -/
theorem execute_agent_empty_tools_is_memory_chain_witness :
    execute_agent llmConst 15 mhNoTools aiStd =
      execute_memory_chain llmConst aiStd mhNoTools.promptPrefixHook
        mhNoTools.promptSuffixHook :=
  (execute_agent_empty_tools_is_memory_chain llmConst 15 mhNoTools aiStd rfl).1

/-- C7 witness: with no allowed tools and an input mapping missing the
required variables, the fallback fails with `MissingVariableError "input"`
and `execute_agent` surfaces exactly that failure. -/
theorem execute_agent_fallback_failure_propagates_witness :
    execute_agent llmConst 15 mhNoTools [] =
      ((.error (.missingVariable "input"), []), []) :=
  (execute_agent_fallback_failure_propagates llmConst 15 mhNoTools []).1 rfl
    (.missingVariable "input") [] [] (by decide)

/-- C4 corrected: the memory chain renders prefix-concatenated-with-suffix
over exactly the four memory variables, issues exactly one LLM completion (a
single `llmCall` event, no tool event), and returns a record whose `output`
is the completion text; the record carries no `intermediate_steps` key at all
(the claim's "empty sequence" field does not exist on the fallback path). -/
theorem execute_memory_chain_record (llm : LLMFun) (ai : AgentInput)
    (preArg sufArg pr : String)
    (hr : renderPrompt (preArg ++ sufArg) memoryChainInputVariables ai = .ok pr)
    (hnk : lookupVar ai "intermediate_steps" = none) :
    ∃ d, execute_memory_chain llm ai preArg sufArg = ((.ok d, [Event.llmCall pr []]), ai) ∧
      dictGet d "output" = some (DVal.str (llm pr [])) ∧
      dictGet d "intermediate_steps" = none := by
  refine ⟨_, execute_memory_chain_ok llm ai preArg sufArg pr hr, ?_, ?_⟩
  · exact dictGet_dictSet_self _ _ _
  · exact memory_record_no_steps ai (llm pr []) hnk

/-- C4 witness: a concrete fallback turn with prefix "PRE " and suffix "SUF"
renders the prompt "PRE SUF", issues one completion and returns it as
`output`, with no `intermediate_steps` key. -/
theorem execute_memory_chain_record_witness :
    ∃ d, execute_memory_chain llmConst aiStd "PRE " "SUF" =
        ((.ok d, [Event.llmCall "PRE SUF" []]), aiStd) ∧
      dictGet d "output" = some (DVal.str (llmConst "PRE SUF" [])) ∧
      dictGet d "intermediate_steps" = none :=
  execute_memory_chain_record llmConst aiStd "PRE " "SUF" "PRE SUF" (by decide) (by decide)

/-- C4 counterexample: on a concrete fallback turn the returned record has no
`intermediate_steps` key — in particular that field is not the empty sequence
the claim promises. -/
theorem execute_memory_chain_no_steps_key_counterexample :
    (execute_memory_chain llmConst aiStd "PRE " "SUF").1.1 = .ok memRecStd ∧
    dictGet memRecStd "intermediate_steps" = none ∧
    dictGet memRecStd "intermediate_steps" ≠ some (.steps []) :=
  ⟨by decide, by decide, by decide⟩

/-- C5 corrected: the variable list returned by the
`before_agent_creates_prompt` hook is computed and then discarded — replacing
the hook by any function whatsoever leaves `execute_agent` bit-for-bit
unchanged, so the prompts are never built from the hook's output. -/
theorem execute_agent_hook_variables_discarded (llm : LLMFun) (n : Nat) (mh : MadHatter)
    (f : List String → String → List String) (ai : AgentInput) :
    execute_agent llm n { mh with beforeAgentCreatesPrompt := f } ai =
      execute_agent llm n mh ai := by
  cases mh
  rfl

/-- C5 counterexample: the hook rewrites the variable set to `["nonsense"]`
and the input mapping supplies exactly that variable, yet the turn fails with
`MissingVariableError "input"` — the fallback prompt still demands the fixed
four variables, so the set the hook returned is not the set used. -/
theorem execute_agent_hook_variables_counterexample :
    hookAdjustedVariables mhHookNonsense = ["nonsense"] ∧
    lookupVar [("nonsense", "x")] "nonsense" = some "x" ∧
    (execute_agent llmConst 15 mhHookNonsense [("nonsense", "x")]).1.1 =
      .error (.missingVariable "input") :=
  ⟨rfl, by decide, by decide⟩

/-- Every LLM request of `execute_tool_agent` carries the single stop
sequence "\nObservation:" and a prompt rendered from the fixed tool template
over the turn's `input` variable and some scratchpad. -/
theorem execute_tool_agent_llmCall_shape (llm : LLMFun) (n : Nat) (ai : AgentInput)
    (tools : List ToolSpec) (p : String) (st : List String)
    (h : Event.llmCall p st ∈ (execute_tool_agent llm n ai tools).1.2) :
    st = ["\nObservation:"] ∧
    ∃ inp steps2, lookupVar ai "input" = some inp ∧ p = toolPrompt tools inp steps2 := by
  unfold execute_tool_agent at h
  split at h
  · simp at h
  · rename_i inp hv
    split at h
    rename_i r tr heq
    split at h <;>
    · try dsimp only at h
      have hmem : Event.llmCall p st ∈ (toolLoop llm tools inp n [] none).2 := by
        rw [heq]; exact h
      obtain ⟨h1, steps2, h2⟩ := toolLoop_llmCall_shape llm tools inp n [] none p st hmem
      exact ⟨h1, inp, steps2, hv, h2⟩

/-- C6: every completion the tool agent requests is issued with exactly the
single stop sequence "\nObservation:". -/
theorem execute_tool_agent_stop_sequences (llm : LLMFun) (n : Nat) (ai : AgentInput)
    (tools : List ToolSpec) (p : String) (st : List String)
    (h : Event.llmCall p st ∈ (execute_tool_agent llm n ai tools).1.2) :
    st = ["\nObservation:"] :=
  (execute_tool_agent_llmCall_shape llm n ai tools p st h).1

/-- C6 witness: the first request of a concrete tool run carries exactly the
stop sequence "\nObservation:". -/
theorem execute_tool_agent_stop_sequences_witness : stopsProbe = ["\nObservation:"] :=
  execute_tool_agent_stop_sequences llm42 15 aiStd [echoTool]
    (toolPrompt [echoTool] "q" []) stopsProbe (by decide)

/-- With allowed tools, the trace of `execute_agent` begins with the tool
run's trace: the loop runs first and anything after it is the fallback's. -/
theorem execute_agent_trace_begins_with_tool_trace (llm : LLMFun) (n : Nat) (mh : MadHatter)
    (ai : AgentInput) (h : 0 < mh.agentAllowedTools.length) :
    ∃ rest, (execute_agent llm n mh ai).1.2 =
      (execute_tool_agent llm n ai mh.agentAllowedTools).1.2 ++ rest := by
  rw [execute_agent_tools llm n mh ai h]
  cases hE : execute_tool_agent llm n ai mh.agentAllowedTools with
  | mk rt ai1 =>
    cases rt with
    | mk r tr =>
      cases r with
      | error e => exact ⟨[], by simp⟩
      | ok out =>
        dsimp only
        by_cases hq : dictGet out "output" ≠ some (DVal.str "?")
        · rw [if_pos hq]; exact ⟨[], by simp⟩
        · rw [if_neg hq]
          exact ⟨(execute_memory_chain llm ai1 mh.promptPrefixHook mh.promptSuffixHook).1.2,
            rfl⟩

/-- C9: the tool path is independent of the hook-supplied prompt fragments:
under any two assignments of prefix, instructions and suffix, the trace of
`execute_agent` begins with one and the same tool-run trace, every completion
request in it uses the fixed literal tool template (a function of the `input`
variable and the scratchpad only) — so the fragments can only influence what
comes after the tool run, namely the fallback. -/
theorem execute_agent_tool_path_fragment_independent (llm : LLMFun) (n : Nat)
    (mh : MadHatter) (a1 b1 c1 a2 b2 c2 : String) (ai : AgentInput)
    (htools : 0 < mh.agentAllowedTools.length) :
    ∃ tr rest1 rest2,
      (execute_agent llm n (mhWith mh a1 b1 c1) ai).1.2 = tr ++ rest1 ∧
      (execute_agent llm n (mhWith mh a2 b2 c2) ai).1.2 = tr ++ rest2 ∧
      tr = (execute_tool_agent llm n ai mh.agentAllowedTools).1.2 ∧
      ∀ p st, Event.llmCall p st ∈ tr →
        st = ["\nObservation:"] ∧
        ∃ inp steps2, lookupVar ai "input" = some inp ∧
          p = toolPrompt mh.agentAllowedTools inp steps2 := by
  have h1 : (mhWith mh a1 b1 c1).agentAllowedTools = mh.agentAllowedTools := rfl
  have h2 : (mhWith mh a2 b2 c2).agentAllowedTools = mh.agentAllowedTools := rfl
  obtain ⟨r1, hr1⟩ := execute_agent_trace_begins_with_tool_trace llm n (mhWith mh a1 b1 c1) ai
    (by rw [h1]; exact htools)
  obtain ⟨r2, hr2⟩ := execute_agent_trace_begins_with_tool_trace llm n (mhWith mh a2 b2 c2) ai
    (by rw [h2]; exact htools)
  rw [h1] at hr1
  rw [h2] at hr2
  refine ⟨(execute_tool_agent llm n ai mh.agentAllowedTools).1.2, r1, r2, hr1, hr2, rfl, ?_⟩
  intro p st hm
  exact execute_tool_agent_llmCall_shape llm n ai mh.agentAllowedTools p st hm

/-- C9 witness: a concrete tool turn under two different fragment
assignments. -/
theorem execute_agent_tool_path_fragment_independent_witness :
    ∃ tr rest1 rest2,
      (execute_agent llm42 15 (mhWith mhStd "A" "B" "C") aiStd).1.2 = tr ++ rest1 ∧
      (execute_agent llm42 15 (mhWith mhStd "D" "E" "F") aiStd).1.2 = tr ++ rest2 ∧
      tr = (execute_tool_agent llm42 15 aiStd mhStd.agentAllowedTools).1.2 ∧
      ∀ p st, Event.llmCall p st ∈ tr →
        st = ["\nObservation:"] ∧
        ∃ inp steps2, lookupVar aiStd "input" = some inp ∧
          p = toolPrompt mhStd.agentAllowedTools inp steps2 :=
  execute_agent_tool_path_fragment_independent llm42 15 mhStd "A" "B" "C" "D" "E" "F" aiStd
    (by decide)

/-- C10: when the tool run returns the sentinel "?", the record handed to the
caller is exactly the memory chain's — and that record holds no
`intermediate_steps` key, so the discarded scratchpad appears nowhere in the
result. -/
theorem execute_agent_discards_tool_scratchpad (llm : LLMFun) (n : Nat) (mh : MadHatter)
    (ai : AgentInput) (out : Dict) (tr : List Event) (ai1 : AgentInput) (d : Dict)
    (ftr : List Event) (ai2 : AgentInput)
    (htools : 0 < mh.agentAllowedTools.length)
    (hE : execute_tool_agent llm n ai mh.agentAllowedTools = ((.ok out, tr), ai1))
    (hq : dictGet out "output" = some (DVal.str "?"))
    (hM : execute_memory_chain llm ai1 mh.promptPrefixHook mh.promptSuffixHook =
      ((.ok d, ftr), ai2))
    (hnk : lookupVar ai1 "intermediate_steps" = none) :
    execute_agent llm n mh ai = ((.ok d, tr ++ ftr), ai2) ∧
    dictGet d "intermediate_steps" = none := by
  constructor
  · rw [execute_agent_tools llm n mh ai htools, hE]
    dsimp only
    rw [if_neg (by simp [hq]), hM]
  · unfold execute_memory_chain at hM
    split at hM
    · exact absurd hM (by simp)
    · simp only [Prod.mk.injEq, Except.ok.injEq] at hM
      obtain ⟨⟨hd, hf⟩, hai⟩ := hM
      subst hd
      exact memory_record_no_steps ai1 _ hnk

/-- C10 witness: a tool run answering the sentinel "?" followed by a fallback
answering "MEMANS": the caller receives exactly the fallback record, with no
`intermediate_steps` key. -/
theorem execute_agent_discards_tool_scratchpad_witness :
    execute_agent llmQ 15 mhStd aiStd =
      ((.ok [("input", .str "q"), ("chat_history", .str "h"), ("episodic_memory", .str "e"),
            ("declarative_memory", .str "d"), ("text", .str "MEMANS"),
            ("output", .str "MEMANS")],
        [Event.llmCall (toolPrompt [echoTool] "q" []) ["\nObservation:"],
         Event.llmCall "PRE SUF" []]), aiStd) ∧
    dictGet [("input", .str "q"), ("chat_history", .str "h"), ("episodic_memory", .str "e"),
             ("declarative_memory", .str "d"), ("text", .str "MEMANS"),
             ("output", .str "MEMANS")] "intermediate_steps" = none :=
  execute_agent_discards_tool_scratchpad llmQ 15 mhStd aiStd
    [("input", .str "q"), ("chat_history", .str "h"), ("episodic_memory", .str "e"),
     ("declarative_memory", .str "d"), ("output", .str "?"),
     ("intermediate_steps", .steps [])]
    [Event.llmCall (toolPrompt [echoTool] "q" []) ["\nObservation:"]] aiStd
    [("input", .str "q"), ("chat_history", .str "h"), ("episodic_memory", .str "e"),
     ("declarative_memory", .str "d"), ("text", .str "MEMANS"), ("output", .str "MEMANS")]
    [Event.llmCall "PRE SUF" []] aiStd
    (by decide) (by decide) (by decide) (by decide) (by decide)
